import Mathlib

/-!
Verification of the `translate` command of the `odev-plugin-ai-translation`
plugin (source: `src/commands/translate.py`).

The command is a linear pipeline over external systems (an Odoo-style ORM, an
LLM provider, the user's console and the filesystem).  We embed it shallowly:
every externally supplied answer (database query results, the export wizard's
action and records, the LLM completion, path predicates, the user's
confirmation) is a field of a `World` record, and each method of
`TranslateCommand` becomes a pure Lean function from the command's arguments
and the world to an event trace plus its Python return value.  Python
exceptions are modelled with `Except`/an outcome field, Python `str` values
that the code manipulates at the character or byte level (base64 payloads,
decoded PO content) are lists of natural numbers (code points / byte values),
and other strings stay Lean `String`s.
-/

namespace Translate

/-- A filesystem path, as its list of components.  `p / name` in the source is
`p ++ [name]` here. -/
abbrev Path := List String

/-! ## Base64 (`base64.b64decode` / the wizard's encoding)

The export wizard returns the PO file base64-encoded; `run` decodes it with
`base64.b64decode(...)`.  Bytes and transport characters are `Nat`s (byte
values / ASCII codes).  `61` is the ASCII code of the `=` padding char. -/

/-- ASCII code of the base64 padding character `=`. -/
def padByte : Nat := 61

/-- The standard base64 alphabet: sextet value (< 64) to ASCII code. -/
def b64Chr (v : Nat) : Nat :=
  if v < 26 then 65 + v
  else if v < 52 then 71 + v
  else if v < 62 then v - 4
  else if v = 62 then 43
  else 47

/-- Inverse of `b64Chr`: ASCII code to sextet value, `none` outside the
alphabet. -/
def b64Val (c : Nat) : Option Nat :=
  if 65 ≤ c ∧ c ≤ 90 then some (c - 65)
  else if 97 ≤ c ∧ c ≤ 122 then some (c - 71)
  else if 48 ≤ c ∧ c ≤ 57 then some (c + 4)
  else if c = 43 then some 62
  else if c = 47 then some 63
  else none

/-- Is `c` a base64 alphabet character or the padding character?  Python's
`b64decode` discards every other character before decoding. -/
def isB64OrPad (c : Nat) : Bool :=
  (b64Val c).isSome || c = padByte

/-- Base64 encoding of a byte list (bytes assumed < 256), producing the ASCII
codes of the encoded text, with `=` padding as in RFC 4648 /
`base64.b64encode`. -/
def b64Encode : List Nat → List Nat
  | b0 :: b1 :: b2 :: rest =>
      b64Chr (b0 / 4) :: b64Chr (b0 % 4 * 16 + b1 / 16) ::
        b64Chr (b1 % 16 * 4 + b2 / 64) :: b64Chr (b2 % 64) :: b64Encode rest
  | [b0, b1] =>
      [b64Chr (b0 / 4), b64Chr (b0 % 4 * 16 + b1 / 16), b64Chr (b1 % 16 * 4), padByte]
  | [b0] =>
      [b64Chr (b0 / 4), b64Chr (b0 % 4 * 16), padByte, padByte]
  | [] => []

/-- Decode a base64 text already filtered to alphabet/padding characters:
groups of four sextet characters, padding allowed only at the very end.
Python's decoder ignores the unused low bits next to the padding, and so do
we. -/
def b64DecodeAux : List Nat → Option (List Nat)
  | [] => some []
  | c0 :: c1 :: c2 :: c3 :: rest =>
      match b64Val c0, b64Val c1 with
      | some v0, some v1 =>
          if c2 = padByte then
            if c3 = padByte ∧ rest = [] then
              some [v0 * 4 + v1 / 16]
            else none
          else
            match b64Val c2 with
            | some v2 =>
                if c3 = padByte then
                  if rest = [] then
                    some [v0 * 4 + v1 / 16, v1 % 16 * 16 + v2 / 4]
                  else none
                else
                  match b64Val c3 with
                  | some v3 =>
                      (fun bs => (v0 * 4 + v1 / 16) :: (v1 % 16 * 16 + v2 / 4) ::
                        (v2 % 4 * 64 + v3) :: bs) <$> b64DecodeAux rest
                  | none => none
            | none => none
      | _, _ => none
  | _ => none

/-- `base64.b64decode` (validate=False, the default used by the source):
discard foreign characters, then decode; `none` models the `binascii.Error`
raised on bad padding. -/
def b64Decode (input : List Nat) : Option (List Nat) :=
  b64DecodeAux (input.filter isB64OrPad)

/-! ## UTF-8 (`bytes.decode("utf-8")` and the inverse encoding) -/

/-- A Unicode scalar value: what a well-formed `str` character is. -/
def ValidScalar (c : Nat) : Prop := c < 0xD800 ∨ (0xE000 ≤ c ∧ c < 0x110000)

instance (c : Nat) : Decidable (ValidScalar c) := by
  unfold ValidScalar; infer_instance

/-- UTF-8 encoding of one scalar value. -/
def utf8EncodeChar (c : Nat) : List Nat :=
  if c < 0x80 then [c]
  else if c < 0x800 then [0xC0 + c / 64, 0x80 + c % 64]
  else if c < 0x10000 then
    [0xE0 + c / 4096, 0x80 + c / 64 % 64, 0x80 + c % 64]
  else
    [0xF0 + c / 0x40000, 0x80 + c / 4096 % 64, 0x80 + c / 64 % 64, 0x80 + c % 64]

/-- UTF-8 encoding of a scalar-value sequence. -/
def utf8Encode (cs : List Nat) : List Nat := cs.flatMap utf8EncodeChar

/-- Is `b` a UTF-8 continuation byte? -/
def isCont (b : Nat) : Bool := 0x80 ≤ b && b < 0xC0

/-- Decode the first UTF-8 sequence `b :: rest`: the scalar value it encodes
and the remaining bytes, or `none` on a malformed, overlong, surrogate or
out-of-range sequence (as Python's strict `utf-8` codec). -/
def utf8DecodeStep (b : Nat) (rest : List Nat) : Option (Nat × List Nat) :=
  if b < 0x80 then some (b, rest)
  else if b < 0xC2 then none
  else if b < 0xE0 then
    match rest with
    | b1 :: rest1 =>
        if isCont b1 then some ((b - 0xC0) * 64 + (b1 - 0x80), rest1) else none
    | [] => none
  else if b < 0xF0 then
    match rest with
    | b1 :: b2 :: rest2 =>
        if isCont b1 && isCont b2 then
          let c := (b - 0xE0) * 4096 + (b1 - 0x80) * 64 + (b2 - 0x80)
          if c < 0x800 ∨ (0xD800 ≤ c ∧ c < 0xE000) then none else some (c, rest2)
        else none
    | _ => none
  else if b < 0xF5 then
    match rest with
    | b1 :: b2 :: b3 :: rest3 =>
        if isCont b1 && isCont b2 && isCont b3 then
          let c := (b - 0xF0) * 0x40000 + (b1 - 0x80) * 4096 +
            (b2 - 0x80) * 64 + (b3 - 0x80)
          if c < 0x10000 ∨ 0x110000 ≤ c then none else some (c, rest3)
        else none
    | _ => none
  else none

theorem utf8DecodeStep_length {b : Nat} {rest : List Nat} {c : Nat} {rest' : List Nat}
    (h : utf8DecodeStep b rest = some (c, rest')) : rest'.length ≤ rest.length := by
  unfold utf8DecodeStep at h
  repeat' split at h
  all_goals try simp_all
  all_goals omega

/-- Fuelled driver for UTF-8 decoding: one `utf8DecodeStep` per fuel unit.
Since each step consumes at least one byte, `bs.length` fuel always
suffices. -/
def utf8DecodeFuel : Nat → List Nat → Option (List Nat)
  | _, [] => some []
  | 0, _ :: _ => none
  | fuel + 1, b :: rest =>
      match utf8DecodeStep b rest with
      | none => none
      | some (c, rest') => (c :: ·) <$> utf8DecodeFuel fuel rest'

theorem utf8DecodeFuel_irrel :
    ∀ (f1 f2 : Nat) (bs : List Nat), bs.length ≤ f1 → bs.length ≤ f2 →
      utf8DecodeFuel f1 bs = utf8DecodeFuel f2 bs := by
  intro f1
  induction f1 using Nat.strong_induction_on with
  | _ f1 ih =>
      intro f2 bs h1 h2
      cases bs with
      | nil => cases f1 <;> cases f2 <;> rfl
      | cons b rest =>
          cases f1 with
          | zero => simp at h1
          | succ f1' =>
              cases f2 with
              | zero => simp at h2
              | succ f2' =>
                  simp only [utf8DecodeFuel]
                  cases hstep : utf8DecodeStep b rest with
                  | none => rfl
                  | some cr =>
                      obtain ⟨c, rest'⟩ := cr
                      have hl := utf8DecodeStep_length hstep
                      simp only [List.length_cons] at h1 h2
                      simp [hstep, ih f1' (by omega) f2' rest' (by omega) (by omega)]

/-- Strict UTF-8 decoding of a byte list, as Python's
`bytes.decode("utf-8")`: `none` models the `UnicodeDecodeError`. -/
def utf8Decode (bs : List Nat) : Option (List Nat) :=
  utf8DecodeFuel bs.length bs

/-- The decoding step of `run`:
`base64.b64decode(b64_content).decode("utf-8")`, `none` when either step
raises. -/
def b64DecodeUtf8 (data : List Nat) : Option (List Nat) :=
  (b64Decode data).bind utf8Decode

/-! ## The command's observable events

Each externally visible action of `TranslateCommand` is recorded as an event;
a run produces the list of events in execution order. -/

/-- Observable actions of one command run, in order of occurrence. -/
inductive Event where
  /-- `ir.module.module` search by exact name (`_get_module_id`). -/
  | searchModule (name : String)
  /-- Creation of a `base.language.export` wizard record
  (`_export_po_file_content`). -/
  | createWizard (lang : String) (moduleId : Nat)
  /-- Invocation of the wizard's `act_getfile` action. -/
  | actGetfile
  /-- `read` of the generated record's `display_name` and `data`. -/
  | readExport (resId : Nat)
  /-- The `llm.completion` call (`_get_ai_translation`). -/
  | llmCall
  /-- `output_path.exists()` check at the head of `_get_output_path`. -/
  | pathExistsCheck (p : Path)
  /-- `self.console.confirm(...)` shown to the user, with the answer given. -/
  | confirmPrompt (answer : Bool)
  /-- `l10n_path.mkdir(exist_ok=True)`: ensure the directory exists. -/
  | mkdir (p : Path)
  /-- `open(full_path, "w", encoding="utf-8")` + `f.write(content)`. -/
  | write (p : Path) (content : String)
  /-- `logger.error(msg)`. -/
  | logError (msg : String)
  /-- `logger.info(msg)`. -/
  | logInfo (msg : String)
deriving DecidableEq, Repr

/-- Python exceptions the command can raise. -/
inductive PyError where
  /-- `ValueError` (empty/absent LLM completion). -/
  | valueError (msg : String)
  /-- `TypeError` (unsupported database type in `_get_ai_translation`). -/
  | typeError (msg : String)
  /-- `binascii.Error` or `UnicodeDecodeError` from
  `base64.b64decode(...).decode("utf-8")` in `run`. -/
  | decodeError
deriving DecidableEq, Repr

/-- Which `isinstance` branch of `_get_ai_translation` applies to
`self._database`. -/
inductive DBKind where
  | local_
  | remote
  /-- Neither `LocalDatabase` nor `RemoteDatabase`: `TypeError` branch. -/
  | other
deriving DecidableEq, Repr

/-- The dict returned by `act_getfile`, reduced to the only key the command
reads: `res_id` is `none` when the key is absent. -/
structure ExportAction where
  res_id : Option Nat
deriving DecidableEq, Repr

/-- One record returned by reading the export wizard: the fields
`display_name` and `data` (the base64 text, as ASCII codes). -/
structure ExportRecord where
  display_name : String
  data : List Nat
deriving DecidableEq, Repr

/-- The command's parsed arguments (`--lang`, `--module`, `--path`, and the
database argument inherited from `DatabaseCommand`). -/
structure Args where
  lang : String
  module_name : String
  path : Path
  database : String

/-- Every answer the outside world gives during one run: ORM query results,
the LLM completion, filesystem predicates and the user's confirmation. -/
structure World where
  /-- Result of `models["ir.module.module"].search([("name","=",name)], limit=1)`. -/
  searchModuleIds : List Nat
  /-- Result of `models["base.language.export"].act_getfile(id)`; `none`
  models a falsy return value. -/
  actGetfile : Option ExportAction
  /-- Result of `models["base.language.export"].read([res_id], ...)`. -/
  readRecords : Nat → List ExportRecord
  /-- Concrete type of `self._database`. -/
  dbKind : DBKind
  /-- `self.config.get("ai", "default_llm")`: the provider name the `LLM`
  client is built with (`llm.provider` in log messages). -/
  llmProvider : String
  /-- Return value of `llm.completion(messages)`; `none` models `None`. -/
  llmResponse : Option String
  /-- `Path.exists` for the filesystem at the time of the run. -/
  pathExists : Path → Bool
  /-- `OdoobinProcess.check_addons_path`. -/
  checkAddonsPath : Path → Bool
  /-- `Path.is_dir`. -/
  isDir : Path → Bool
  /-- The user's answer to `self.console.confirm(...)`. -/
  confirm : Bool

/-- Render a path for log messages (stands in for Python's `str(Path)`). -/
def pathStr (p : Path) : String := String.intercalate "/" p

/-- `TranslateCommand._get_module_id`: search the module by exact name;
on no match, `return logger.error(...)` returns `None`. -/
def get_module_id (a : Args) (w : World) : List Event × Option Nat :=
  match w.searchModuleIds with
  | [] =>
      ([Event.searchModule a.module_name,
        Event.logError ("Module '" ++ a.module_name ++ "' not found.")], none)
  | id0 :: _ => ([Event.searchModule a.module_name], some id0)

/-- `TranslateCommand._export_po_file_content`: create the export wizard,
trigger `act_getfile`, read back `display_name` and `data`; any missing
intermediate result logs an error and returns `None`. -/
def export_po_file_content (a : Args) (w : World) (module_id : Nat) :
    List Event × Option (String × List Nat) :=
  let ev0 := [Event.createWizard a.lang module_id, Event.actGetfile]
  match w.actGetfile with
  | none =>
      (ev0 ++ [Event.logError "Failed to trigger the file export action in Odoo."], none)
  | some action =>
      match action.res_id with
      | none =>
          (ev0 ++ [Event.logError "Failed to trigger the file export action in Odoo."], none)
      | some rid =>
          match w.readRecords rid with
          | [] =>
              (ev0 ++ [Event.readExport rid,
                Event.logError "Failed to read the exported translation data from Odoo."], none)
          | rec0 :: _ =>
              (ev0 ++ [Event.readExport rid], some (rec0.display_name, rec0.data))

/-- `TranslateCommand._get_ai_translation`: dispatch on the database type
(`TypeError` for an unsupported one), call the LLM, and raise `ValueError`
on a falsy (`None` or empty) completion; otherwise return the completion.

The elided remote/local preparation (spawning the local process, registering
addons paths, `update_worktrees`, `gather_po_context` and building the prompt
string) only affects the argument of `llm.completion`, whose answer the
`World.llmResponse` oracle already abstracts; it raises nothing on its own and
touches none of the observables the claims mention.  The `logger.debug` of the
prompt and the progress spinner around the call are likewise elided; the
`logger.info` emitted after a successful completion is kept.  The returned
value keeps the Python type `str | None` of `llm.completion`, so that `run`'s
`is None` check can be stated faithfully. -/
def get_ai_translation (w : World) (poContent : List Nat) :
    List Event × Except PyError (Option String) :=
  match w.dbKind with
  | DBKind.other =>
      ([], Except.error (PyError.typeError "Unsupported database type for fetching context."))
  | _ =>
      match w.llmResponse with
      | none =>
          ([Event.llmCall],
            Except.error (PyError.valueError "AI translation failed or returned no content."))
      | some s =>
          if s = "" then
            ([Event.llmCall],
              Except.error (PyError.valueError "AI translation failed or returned no content."))
          else
            ([Event.llmCall, Event.logInfo ("Translation completed successfully using '" ++
              w.llmProvider ++ "'.")], Except.ok (some s))

/-- `TranslateCommand._get_output_path`: check the requested path exists; if
it is an addons path containing a directory named after the module, ask the
user whether to write inside that module's `i18n` folder (created with
`exist_ok=True`), declining cancels; otherwise use the path as given. -/
def get_output_path (a : Args) (w : World) : List Event × Option Path :=
  let output_path := a.path
  if w.pathExists output_path then
    let module_path := output_path ++ [a.module_name]
    if w.checkAddonsPath output_path && w.isDir module_path then
      if w.confirm then
        let l10n_path := module_path ++ ["i18n"]
        ([Event.pathExistsCheck output_path, Event.confirmPrompt true,
          Event.mkdir l10n_path], some l10n_path)
      else
        ([Event.pathExistsCheck output_path, Event.confirmPrompt false,
          Event.logInfo "Operation cancelled by user."], none)
    else
      ([Event.pathExistsCheck output_path], some output_path)
  else
    ([Event.pathExistsCheck output_path,
      Event.logError ("The path " ++ pathStr output_path ++ " does not exist.")], none)

/-- `TranslateCommand._write_translation_file`: write `content` to
`path / filename` in text mode (`"w"`, UTF-8), then log. -/
def write_translation_file (path : Path) (filename : String) (content : String) :
    List Event :=
  let full_path := path ++ [filename]
  [Event.write full_path content,
    Event.logInfo ("Translation file written to " ++ pathStr full_path ++ ".")]

/-- The opening `logger.info` of `run`. -/
def runHeader (a : Args) : List Event :=
  [Event.logInfo ("Translating '" ++ a.module_name ++ "' from " ++
    a.database ++ " into " ++ a.lang)]

/-- `TranslateCommand.run`: the five-stage pipeline.  The second component is
`none` for a normal return and `some e` when the run raises `e`.  `mres.1` is
the events of `_get_module_id` and `mres.2` its return value, and so on for
the other steps. -/
def run (a : Args) (w : World) : List Event × Option PyError :=
  let ev0 := runHeader a
  let mres := get_module_id a w
  match mres.2 with
  | none => (ev0 ++ mres.1, none)
  | some mid =>
      if mid = 0 then (ev0 ++ mres.1, none)  -- `if not module_id` is also true for 0
      else
        let eres := export_po_file_content a w mid
        match eres.2 with
        | none => (ev0 ++ mres.1 ++ eres.1, none)
        | some (filename, b64_content) =>
            match b64DecodeUtf8 b64_content with
            | none => (ev0 ++ mres.1 ++ eres.1, some PyError.decodeError)
            | some po_content =>
                let tres := get_ai_translation w po_content
                match tres.2 with
                | Except.error e => (ev0 ++ mres.1 ++ eres.1 ++ tres.1, some e)
                | Except.ok ai_translation =>
                    match ai_translation with
                    | none =>
                        (ev0 ++ mres.1 ++ eres.1 ++ tres.1 ++
                          [Event.logError "AI translation failed."], none)
                    | some translated =>
                        let ores := get_output_path a w
                        match ores.2 with
                        | none => (ev0 ++ mres.1 ++ eres.1 ++ tres.1 ++ ores.1, none)
                        | some out =>
                            (ev0 ++ mres.1 ++ eres.1 ++ tres.1 ++ ores.1 ++
                              write_translation_file out filename translated, none)

/-! ## Round-trip lemmas for the codecs -/

theorem b64Val_b64Chr {v : Nat} (h : v < 64) : b64Val (b64Chr v) = some v := by
  revert h; revert v; decide

theorem b64Chr_ne_pad {v : Nat} (h : v < 64) : b64Chr v ≠ padByte := by
  revert h; revert v; decide

theorem isB64OrPad_b64Chr {v : Nat} (h : v < 64) : isB64OrPad (b64Chr v) = true := by
  simp [isB64OrPad, b64Val_b64Chr h]

theorem b64Encode_all_valid {bs : List Nat} (h : ∀ b ∈ bs, b < 256) :
    ∀ c ∈ b64Encode bs, isB64OrPad c = true := by
  induction bs using b64Encode.induct with
  | case1 b0 b1 b2 rest ih =>
      have hb0 : b0 < 256 := h _ (by simp)
      have hb1 : b1 < 256 := h _ (by simp)
      have hb2 : b2 < 256 := h _ (by simp)
      intro c hc
      simp only [b64Encode, List.mem_cons] at hc
      rcases hc with rfl | rfl | rfl | rfl | hc
      · exact isB64OrPad_b64Chr (by omega)
      · exact isB64OrPad_b64Chr (by omega)
      · exact isB64OrPad_b64Chr (by omega)
      · exact isB64OrPad_b64Chr (by omega)
      · exact ih (fun b hb => h b (by simp [hb])) c hc
  | case2 b0 b1 =>
      have hb0 : b0 < 256 := h _ (by simp)
      have hb1 : b1 < 256 := h _ (by simp)
      intro c hc
      simp only [b64Encode, List.mem_cons] at hc
      rcases hc with rfl | rfl | rfl | rfl | hc
      · exact isB64OrPad_b64Chr (by omega)
      · exact isB64OrPad_b64Chr (by omega)
      · exact isB64OrPad_b64Chr (by omega)
      · simp [isB64OrPad]
      · simp at hc
  | case3 b0 =>
      have hb0 : b0 < 256 := h _ (by simp)
      intro c hc
      simp only [b64Encode, List.mem_cons] at hc
      rcases hc with rfl | rfl | rfl | rfl | hc
      · exact isB64OrPad_b64Chr (by omega)
      · exact isB64OrPad_b64Chr (by omega)
      · simp [isB64OrPad]
      · simp [isB64OrPad]
      · simp at hc
  | case4 => intro c hc; simp [b64Encode] at hc

theorem b64DecodeAux_b64Encode {bs : List Nat} (h : ∀ b ∈ bs, b < 256) :
    b64DecodeAux (b64Encode bs) = some bs := by
  induction bs using b64Encode.induct with
  | case1 b0 b1 b2 rest ih =>
      have hb0 : b0 < 256 := h _ (by simp)
      have hb1 : b1 < 256 := h _ (by simp)
      have hb2 : b2 < 256 := h _ (by simp)
      simp only [b64Encode, b64DecodeAux,
        b64Val_b64Chr (show b0 / 4 < 64 by omega),
        b64Val_b64Chr (show b0 % 4 * 16 + b1 / 16 < 64 by omega),
        b64Val_b64Chr (show b1 % 16 * 4 + b2 / 64 < 64 by omega),
        b64Val_b64Chr (show b2 % 64 < 64 by omega),
        if_neg (b64Chr_ne_pad (show b1 % 16 * 4 + b2 / 64 < 64 by omega)),
        if_neg (b64Chr_ne_pad (show b2 % 64 < 64 by omega)),
        ih (fun b hb => h b (by simp [hb])), Option.map_some']
      have e0 : b0 / 4 * 4 + (b0 % 4 * 16 + b1 / 16) / 16 = b0 := by omega
      have e1 : (b0 % 4 * 16 + b1 / 16) % 16 * 16 + (b1 % 16 * 4 + b2 / 64) / 4 = b1 := by
        omega
      have e2 : (b1 % 16 * 4 + b2 / 64) % 4 * 64 + b2 % 64 = b2 := by omega
      rw [e0, e1, e2]
      simp
  | case2 b0 b1 =>
      have hb0 : b0 < 256 := h _ (by simp)
      have hb1 : b1 < 256 := h _ (by simp)
      simp only [b64Encode, b64DecodeAux,
        b64Val_b64Chr (show b0 / 4 < 64 by omega),
        b64Val_b64Chr (show b0 % 4 * 16 + b1 / 16 < 64 by omega),
        b64Val_b64Chr (show b1 % 16 * 4 < 64 by omega),
        if_neg (b64Chr_ne_pad (show b1 % 16 * 4 < 64 by omega)), if_pos rfl,
        if_pos (And.intro rfl rfl)]
      have e0 : b0 / 4 * 4 + (b0 % 4 * 16 + b1 / 16) / 16 = b0 := by omega
      have e1 : (b0 % 4 * 16 + b1 / 16) % 16 * 16 + b1 % 16 * 4 / 4 = b1 := by omega
      rw [e0, e1]
      simp
  | case3 b0 =>
      have hb0 : b0 < 256 := h _ (by simp)
      simp only [b64Encode, b64DecodeAux,
        b64Val_b64Chr (show b0 / 4 < 64 by omega),
        b64Val_b64Chr (show b0 % 4 * 16 < 64 by omega), if_pos rfl,
        if_pos (And.intro rfl rfl)]
      have e0 : b0 / 4 * 4 + b0 % 4 * 16 / 16 = b0 := by omega
      rw [e0]
      simp
  | case4 => rfl

/-- Decoding inverts encoding at the byte level (C2, base64 half). -/
theorem b64Decode_b64Encode {bs : List Nat} (h : ∀ b ∈ bs, b < 256) :
    b64Decode (b64Encode bs) = some bs := by
  unfold b64Decode
  rw [List.filter_eq_self.mpr (b64Encode_all_valid h), b64DecodeAux_b64Encode h]

theorem utf8Decode_nil : utf8Decode [] = some [] := rfl

theorem utf8Decode_cons_some {b : Nat} {rest : List Nat} {c : Nat} {rest' : List Nat}
    (hstep : utf8DecodeStep b rest = some (c, rest')) :
    utf8Decode (b :: rest) = (c :: ·) <$> utf8Decode rest' := by
  unfold utf8Decode
  simp only [List.length_cons, utf8DecodeFuel, hstep]
  rw [utf8DecodeFuel_irrel rest.length rest'.length rest'
    (utf8DecodeStep_length hstep) le_rfl]

theorem utf8DecodeStep_encodeChar {c : Nat} (h : ValidScalar c) (bs : List Nat) :
    ∃ b rest, utf8EncodeChar c ++ bs = b :: rest ∧
      utf8DecodeStep b rest = some (c, bs) := by
  have hrange : c < 0x110000 := by rcases h with h | h <;> omega
  by_cases h1 : c < 0x80
  · refine ⟨c, bs, by simp [utf8EncodeChar, h1], ?_⟩
    unfold utf8DecodeStep
    rw [if_pos h1]
  · by_cases h2 : c < 0x800
    · refine ⟨0xC0 + c / 64, (0x80 + c % 64) :: bs, by simp [utf8EncodeChar, h1, h2], ?_⟩
      have hcont : isCont (0x80 + c % 64) = true := by simp [isCont]; omega
      unfold utf8DecodeStep
      rw [if_neg (by omega), if_neg (by omega), if_pos (by omega)]
      simp only [hcont, if_true]
      have : (0xC0 + c / 64 - 0xC0) * 64 + (0x80 + c % 64 - 0x80) = c := by omega
      rw [this]
    · by_cases h3 : c < 0x10000
      · refine ⟨0xE0 + c / 4096, (0x80 + c / 64 % 64) :: (0x80 + c % 64) :: bs,
          by simp [utf8EncodeChar, h1, h2, h3], ?_⟩
        have hc1 : isCont (0x80 + c / 64 % 64) = true := by simp [isCont]; omega
        have hc2 : isCont (0x80 + c % 64) = true := by simp [isCont]; omega
        unfold utf8DecodeStep
        rw [if_neg (by omega), if_neg (by omega), if_neg (by omega), if_pos (by omega)]
        simp only [hc1, hc2, Bool.and_self, if_true]
        have hval : (0xE0 + c / 4096 - 0xE0) * 4096 + (0x80 + c / 64 % 64 - 0x80) * 64 +
            (0x80 + c % 64 - 0x80) = c := by omega
        rw [hval, if_neg (by rcases h with h | h <;> omega)]
      · refine ⟨0xF0 + c / 0x40000,
          (0x80 + c / 4096 % 64) :: (0x80 + c / 64 % 64) :: (0x80 + c % 64) :: bs,
          by simp [utf8EncodeChar, h1, h2, h3], ?_⟩
        have hc1 : isCont (0x80 + c / 4096 % 64) = true := by simp [isCont]; omega
        have hc2 : isCont (0x80 + c / 64 % 64) = true := by simp [isCont]; omega
        have hc3 : isCont (0x80 + c % 64) = true := by simp [isCont]; omega
        unfold utf8DecodeStep
        rw [if_neg (by omega), if_neg (by omega), if_neg (by omega), if_neg (by omega),
          if_pos (by omega)]
        simp only [hc1, hc2, hc3, Bool.and_self, if_true]
        have hval : (0xF0 + c / 0x40000 - 0xF0) * 0x40000 +
            (0x80 + c / 4096 % 64 - 0x80) * 4096 + (0x80 + c / 64 % 64 - 0x80) * 64 +
            (0x80 + c % 64 - 0x80) = c := by omega
        rw [hval, if_neg (by omega)]

theorem utf8Decode_encodeChar {c : Nat} (h : ValidScalar c) (bs : List Nat) :
    utf8Decode (utf8EncodeChar c ++ bs) = (c :: ·) <$> utf8Decode bs := by
  obtain ⟨b, rest, heq, hstep⟩ := utf8DecodeStep_encodeChar h bs
  rw [heq, utf8Decode_cons_some hstep]

/-- Decoding inverts encoding at the text level (C2, UTF-8 half). -/
theorem utf8Decode_utf8Encode {cs : List Nat} (h : ∀ c ∈ cs, ValidScalar c) :
    utf8Decode (utf8Encode cs) = some cs := by
  induction cs with
  | nil => exact utf8Decode_nil
  | cons c cs ih =>
      rw [show utf8Encode (c :: cs) = utf8EncodeChar c ++ utf8Encode cs by
        simp [utf8Encode]]
      rw [utf8Decode_encodeChar (h c (by simp)), ih (fun x hx => h x (by simp [hx]))]
      rfl

theorem utf8EncodeChar_lt_256 {c : Nat} (h : ValidScalar c) :
    ∀ b ∈ utf8EncodeChar c, b < 256 := by
  intro b hb
  have hrange : c < 0x110000 := by rcases h with h | h <;> omega
  unfold utf8EncodeChar at hb
  by_cases h1 : c < 0x80
  · simp [h1] at hb; omega
  · by_cases h2 : c < 0x800
    · simp [h1, h2] at hb
      rcases hb with rfl | rfl <;> omega
    · by_cases h3 : c < 0x10000
      · simp [h1, h2, h3] at hb
        rcases hb with rfl | rfl | rfl <;> omega
      · simp [h1, h2, h3] at hb
        rcases hb with rfl | rfl | rfl | rfl <;> omega

theorem utf8Encode_lt_256 {cs : List Nat} (h : ∀ c ∈ cs, ValidScalar c) :
    ∀ b ∈ utf8Encode cs, b < 256 := by
  intro b hb
  simp only [utf8Encode, List.mem_flatMap] at hb
  obtain ⟨c, hc, hbc⟩ := hb
  exact utf8EncodeChar_lt_256 (h c hc) b hbc

/-! ## Stages and filesystem semantics -/

/-- The five stages of `run`, in the spec's order. -/
inductive Stage where
  | resolveModule
  | exportPo
  | translateStage
  | resolveOutput
  | writeFile
deriving DecidableEq, Repr

/-- The event marking that a stage has started executing: the module search,
the wizard creation, the LLM call, the output-path existence check, and the
file write. -/
def stageOf : Event → Option Stage
  | Event.searchModule _ => some Stage.resolveModule
  | Event.createWizard _ _ => some Stage.exportPo
  | Event.llmCall => some Stage.translateStage
  | Event.pathExistsCheck _ => some Stage.resolveOutput
  | Event.write _ _ => some Stage.writeFile
  | _ => none

/-- The stage markers of a trace, in order. -/
def stagesOf (tr : List Event) : List Stage := tr.filterMap stageOf

/-- The spec's stage order:
resolve module → export → translate → resolve output → write. -/
def stageOrder : List Stage :=
  [Stage.resolveModule, Stage.exportPo, Stage.translateStage,
    Stage.resolveOutput, Stage.writeFile]

/-- File contents after one event: only `write` changes a file, replacing
whatever was at that path (`open(..., "w")` truncates). -/
def applyEvent (fs : Path → Option String) : Event → (Path → Option String)
  | Event.write p c => fun q => if q = p then some c else fs q
  | _ => fs

/-- File contents after a trace. -/
def applyFS (fs : Path → Option String) (evs : List Event) : Path → Option String :=
  evs.foldl applyEvent fs

theorem stagesOf_append (l1 l2 : List Event) :
    stagesOf (l1 ++ l2) = stagesOf l1 ++ stagesOf l2 := by
  simp [stagesOf]

/-! ## C2: the decode step reconstructs the exported text -/

/-- C2: for an export whose base64 content encodes a UTF-8 text, the decoding
step of `run` (`base64.b64decode(...).decode("utf-8")`, i.e. `b64DecodeUtf8`)
exactly reconstructs the original text: base64-decode then UTF-8-decode is a
left inverse of UTF-8-encode then base64-encode. -/
theorem decode_reconstructs_export (cs : List Nat) (h : ∀ c ∈ cs, ValidScalar c) :
    b64DecodeUtf8 (b64Encode (utf8Encode cs)) = some cs := by
  unfold b64DecodeUtf8
  rw [b64Decode_b64Encode (utf8Encode_lt_256 h), Option.some_bind]
  exact utf8Decode_utf8Encode h

/-- Witness for C2 at the text "msgid é€😀"
(code points `[109,115,103,105,100,32,233,8364,128512]`). -/
theorem decode_reconstructs_export_witness :
    (∀ c ∈ [109, 115, 103, 105, 100, 32, 233, 8364, 128512], ValidScalar c) ∧
      b64DecodeUtf8 (b64Encode (utf8Encode [109, 115, 103, 105, 100, 32, 233, 8364, 128512])) =
        some [109, 115, 103, 105, 100, 32, 233, 8364, 128512] :=
  ⟨by decide, decode_reconstructs_export _ (by decide)⟩

/-! ## Stage content of each step -/

theorem stagesOf_nil : stagesOf [] = [] := rfl

theorem stagesOf_logInfo_cons (m : String) (tr : List Event) :
    stagesOf (Event.logInfo m :: tr) = stagesOf tr := by
  simp [stagesOf, stageOf]

theorem stagesOf_logError_cons (m : String) (tr : List Event) :
    stagesOf (Event.logError m :: tr) = stagesOf tr := by
  simp [stagesOf, stageOf]

theorem stagesOf_runHeader (a : Args) : stagesOf (runHeader a) = [] := rfl

theorem stagesOf_get_module_id (a : Args) (w : World) :
    stagesOf (get_module_id a w).1 = [Stage.resolveModule] := by
  unfold get_module_id
  cases w.searchModuleIds <;> simp [stagesOf, stageOf]

theorem stagesOf_export (a : Args) (w : World) (mid : Nat) :
    stagesOf (export_po_file_content a w mid).1 = [Stage.exportPo] := by
  unfold export_po_file_content
  cases w.actGetfile with
  | none => simp [stagesOf, stageOf]
  | some action =>
      obtain ⟨rs⟩ := action
      cases rs with
      | none => simp [stagesOf, stageOf]
      | some rid =>
          cases h : w.readRecords rid <;> simp [h, stagesOf, stageOf]

theorem stagesOf_gat (w : World) (po : List Nat) :
    stagesOf (get_ai_translation w po).1 = [] ∨
      stagesOf (get_ai_translation w po).1 = [Stage.translateStage] := by
  unfold get_ai_translation
  cases w.dbKind with
  | other => exact Or.inl rfl
  | local_ =>
      refine Or.inr ?_
      cases hl : w.llmResponse with
      | none => simp [stagesOf, stageOf]
      | some s => by_cases hs : s = "" <;> simp [hs, stagesOf, stageOf]
  | remote =>
      refine Or.inr ?_
      cases hl : w.llmResponse with
      | none => simp [stagesOf, stageOf]
      | some s => by_cases hs : s = "" <;> simp [hs, stagesOf, stageOf]

theorem stagesOf_gat_ok {w : World} {po : List Nat} {x : Option String}
    (h : (get_ai_translation w po).2 = Except.ok x) :
    stagesOf (get_ai_translation w po).1 = [Stage.translateStage] := by
  unfold get_ai_translation at h ⊢
  cases k : w.dbKind <;> cases hl : w.llmResponse <;>
    simp_all [stagesOf, stageOf] <;> split at h <;> simp_all [stagesOf, stageOf]

theorem stagesOf_get_output_path (a : Args) (w : World) :
    stagesOf (get_output_path a w).1 = [Stage.resolveOutput] := by
  unfold get_output_path
  by_cases h1 : w.pathExists a.path <;>
    by_cases h2 : w.checkAddonsPath a.path && w.isDir (a.path ++ [a.module_name]) <;>
    by_cases h3 : w.confirm <;>
    simp [h1, h2, h3, stagesOf, stageOf]

theorem stagesOf_write (p : Path) (fn c : String) :
    stagesOf (write_translation_file p fn c) = [Stage.writeFile] := rfl

/-! ## C7: the pipeline is linear -/

/-- C7: every run's stage markers form a prefix of
resolve module → export → translate → resolve output → write: the stages run
strictly in that order, each at most once (never re-entered), and a failure
at any stage truncates the run so no later stage executes — in particular the
output path is only checked after the LLM translation completed. -/
theorem run_stages_linear (a : Args) (w : World) :
    stagesOf (run a w).1 <+: stageOrder ∧
      ∀ s : Stage, (stagesOf (run a w).1).count s ≤ 1 := by
  have hpre : stagesOf (run a w).1 <+: stageOrder := by
    simp only [run]
    repeat' split
    all_goals simp only [stagesOf_append, stagesOf_logInfo_cons, stagesOf_logError_cons,
      stagesOf_nil, stagesOf_runHeader, stagesOf_get_module_id, stagesOf_export,
      stagesOf_get_output_path, stagesOf_write, List.singleton_append,
      List.cons_append, List.nil_append, List.append_nil]
    all_goals try decide
    -- remaining goals mention `stagesOf (get_ai_translation w _).1`; the ones
    -- reached through an `Except.ok` result pin it to `[translateStage]`, the
    -- error branch leaves both possibilities, and both are prefixes
    · rename_i po hdec x e hgat
      rcases stagesOf_gat w po with hg | hg <;> rw [hg] <;> decide
    · rename_i x hgat
      rw [stagesOf_gat_ok hgat]
      decide
    · rename_i s hgat x hout
      rw [stagesOf_gat_ok hgat]
      decide
    · rename_i s hgat x out hout
      rw [stagesOf_gat_ok hgat]
      decide
  refine ⟨hpre, fun s => ?_⟩
  calc (stagesOf (run a w).1).count s ≤ stageOrder.count s :=
        hpre.sublist.count_le s
    _ ≤ 1 := by cases s <;> decide

/-! ## What each step's trace can contain -/

theorem runHeader_events (a : Args) :
    ∀ e ∈ runHeader a, ∃ m, e = Event.logInfo m := by
  intro e he
  simp only [runHeader, List.mem_singleton] at he
  exact ⟨_, he⟩

theorem get_module_id_events (a : Args) (w : World) :
    ∀ e ∈ (get_module_id a w).1,
      e = Event.searchModule a.module_name ∨
        e = Event.logError ("Module '" ++ a.module_name ++ "' not found.") := by
  intro e he
  unfold get_module_id at he
  cases h : w.searchModuleIds <;> simp only [h] at he <;> simp_all <;> tauto

theorem export_events (a : Args) (w : World) (mid : Nat) :
    ∀ e ∈ (export_po_file_content a w mid).1,
      e = Event.createWizard a.lang mid ∨ e = Event.actGetfile ∨
        (∃ r, e = Event.readExport r) ∨
        e = Event.logError "Failed to trigger the file export action in Odoo." ∨
        e = Event.logError "Failed to read the exported translation data from Odoo." := by
  intro e he
  unfold export_po_file_content at he
  cases hag : w.actGetfile with
  | none => simp only [hag] at he; simp_all <;> tauto
  | some action =>
      obtain ⟨rs⟩ := action
      cases hrs : rs with
      | none => simp only [hag, hrs] at he; simp_all <;> tauto
      | some rid =>
          cases h : w.readRecords rid <;> simp only [hag, hrs, h] at he <;>
            simp_all <;> tauto

theorem gat_events (w : World) (po : List Nat) :
    ∀ e ∈ (get_ai_translation w po).1,
      e = Event.llmCall ∨
        e = Event.logInfo ("Translation completed successfully using '" ++
          w.llmProvider ++ "'.") := by
  intro e he
  unfold get_ai_translation at he
  cases h : w.dbKind <;> simp only [h] at he <;>
    [skip; skip; simp_all] <;>
    cases hl : w.llmResponse <;> simp only [hl] at he <;>
    [simp_all; split at he <;> simp_all <;> tauto;
      simp_all; split at he <;> simp_all <;> tauto]

theorem gop_events (a : Args) (w : World) :
    ∀ e ∈ (get_output_path a w).1,
      e = Event.pathExistsCheck a.path ∨ (∃ b, e = Event.confirmPrompt b) ∨
        e = Event.mkdir (a.path ++ [a.module_name] ++ ["i18n"]) ∨
        e = Event.logError ("The path " ++ pathStr a.path ++ " does not exist.") ∨
        e = Event.logInfo "Operation cancelled by user." := by
  intro e he
  unfold get_output_path at he
  by_cases h1 : w.pathExists a.path <;>
    by_cases h2 : w.checkAddonsPath a.path && w.isDir (a.path ++ [a.module_name]) <;>
    by_cases h3 : w.confirm <;>
    simp only [h1, h2, h3, if_true, if_false, Bool.false_eq_true] at he <;>
    simp_all <;> aesop

theorem write_events (p : Path) (fn c : String) :
    ∀ e ∈ write_translation_file p fn c,
      e = Event.write (p ++ [fn]) c ∨
        e = Event.logInfo ("Translation file written to " ++ pathStr (p ++ [fn]) ++ ".") := by
  intro e he
  unfold write_translation_file at he
  simp_all <;> tauto

/-! ## Master case analysis of `run` -/

/-- Everything a run can do, following the branch structure of `run`: the
result of each step determines which case applies, and in each case the
produced trace and outcome are given exactly. -/
theorem run_cases (a : Args) (w : World) :
    (run a w = (runHeader a ++ (get_module_id a w).1, none) ∧
      ((get_module_id a w).2 = none ∨ (get_module_id a w).2 = some 0)) ∨
    (∃ mid, (get_module_id a w).2 = some mid ∧ mid ≠ 0 ∧
      (((export_po_file_content a w mid).2 = none ∧
         run a w = (runHeader a ++ (get_module_id a w).1 ++
           (export_po_file_content a w mid).1, none)) ∨
       (∃ fn bc, (export_po_file_content a w mid).2 = some (fn, bc) ∧
         ((b64DecodeUtf8 bc = none ∧
            run a w = (runHeader a ++ (get_module_id a w).1 ++
              (export_po_file_content a w mid).1, some PyError.decodeError)) ∨
          (∃ po, b64DecodeUtf8 bc = some po ∧
            ((∃ err, (get_ai_translation w po).2 = Except.error err ∧
               run a w = (runHeader a ++ (get_module_id a w).1 ++
                 (export_po_file_content a w mid).1 ++
                 (get_ai_translation w po).1, some err)) ∨
             ((get_ai_translation w po).2 = Except.ok none ∧
               run a w = (runHeader a ++ (get_module_id a w).1 ++
                 (export_po_file_content a w mid).1 ++ (get_ai_translation w po).1 ++
                 [Event.logError "AI translation failed."], none)) ∨
             (∃ tr, (get_ai_translation w po).2 = Except.ok (some tr) ∧
               (((get_output_path a w).2 = none ∧
                  run a w = (runHeader a ++ (get_module_id a w).1 ++
                    (export_po_file_content a w mid).1 ++ (get_ai_translation w po).1 ++
                    (get_output_path a w).1, none)) ∨
                (∃ out, (get_output_path a w).2 = some out ∧
                  run a w = (runHeader a ++ (get_module_id a w).1 ++
                    (export_po_file_content a w mid).1 ++ (get_ai_translation w po).1 ++
                    (get_output_path a w).1 ++
                    write_translation_file out fn tr, none)))))))))) := by
  simp only [run]
  repeat' split
  · exact Or.inl ⟨rfl, Or.inl (by assumption)⟩
  · exact Or.inl ⟨rfl, Or.inr (by simp_all)⟩
  · exact Or.inr ⟨_, by assumption, by assumption, Or.inl ⟨by assumption, rfl⟩⟩
  · exact Or.inr ⟨_, by assumption, by assumption,
      Or.inr ⟨_, _, by assumption, Or.inl ⟨by assumption, rfl⟩⟩⟩
  · exact Or.inr ⟨_, by assumption, by assumption,
      Or.inr ⟨_, _, by assumption, Or.inr ⟨_, by assumption,
        Or.inl ⟨_, by assumption, rfl⟩⟩⟩⟩
  · exact Or.inr ⟨_, by assumption, by assumption,
      Or.inr ⟨_, _, by assumption, Or.inr ⟨_, by assumption,
        Or.inr (Or.inl ⟨by assumption, rfl⟩)⟩⟩⟩
  · exact Or.inr ⟨_, by assumption, by assumption,
      Or.inr ⟨_, _, by assumption, Or.inr ⟨_, by assumption,
        Or.inr (Or.inr ⟨_, by assumption, Or.inl ⟨by assumption, rfl⟩⟩)⟩⟩⟩
  · exact Or.inr ⟨_, by assumption, by assumption,
      Or.inr ⟨_, _, by assumption, Or.inr ⟨_, by assumption,
        Or.inr (Or.inr ⟨_, by assumption, Or.inr ⟨_, by assumption, rfl⟩⟩)⟩⟩⟩

/-! ## Log-message disequalities

The run-level claims need that the parameterised log messages of other steps
can never collide with `"AI translation failed."`. -/

theorem module_msg_ne (x : String) :
    "Module '" ++ x ++ "' not found." ≠ "AI translation failed." := by
  intro h
  have h2 := congrArg String.data h
  have e2 : ("AI translation failed.").data = 'A' :: ("I translation failed.").data := rfl
  have e1 : ("Module '").data = 'M' :: ("odule '").data := rfl
  rw [String.data_append, String.data_append, e2, e1] at h2
  simp at h2

theorem path_msg_ne (x : String) :
    "The path " ++ x ++ " does not exist." ≠ "AI translation failed." := by
  intro h
  have h2 := congrArg String.data h
  have e2 : ("AI translation failed.").data = 'A' :: ("I translation failed.").data := rfl
  have e1 : ("The path ").data = 'T' :: ("he path ").data := rfl
  rw [String.data_append, String.data_append, e2, e1] at h2
  simp at h2

/-! ## Concrete fixtures used by the witnesses -/

/-- Arguments of the spec's worked example: module `sale`, language `fr_FR`,
path `/addons`. -/
def argsA : Args := ⟨"fr_FR", "sale", ["addons"], "db1"⟩

/-- A world whose module search returns no match. -/
def worldNoModule : World :=
  ⟨[], none, fun _ => [], DBKind.local_, "openai", none,
    fun _ => true, fun _ => true, fun _ => true, true⟩

/-- A world where everything up to the LLM call succeeds but the completion
comes back `None`. -/
def worldLlmEmpty : World :=
  ⟨[7], some ⟨some 3⟩, fun _ => [⟨"sale.po", b64Encode (utf8Encode [104, 105])⟩],
    DBKind.local_, "openai", none, fun _ => true, fun _ => true, fun _ => true, true⟩

/-- A fully successful world except that the user declines the prompt. -/
def worldDecline : World :=
  ⟨[7], some ⟨some 3⟩, fun _ => [⟨"sale.po", b64Encode (utf8Encode [104, 105])⟩],
    DBKind.local_, "openai", some "bonjour", fun _ => true, fun _ => true, fun _ => true,
    false⟩

/-- A fully successful world, the user accepting the prompt. -/
def worldAccept : World :=
  ⟨[7], some ⟨some 3⟩, fun _ => [⟨"sale.po", b64Encode (utf8Encode [104, 105])⟩],
    DBKind.local_, "openai", some "bonjour", fun _ => true, fun _ => true, fun _ => true,
    true⟩

/-- A world whose export wizard's `act_getfile` returns nothing. -/
def worldNoAction : World :=
  ⟨[7], none, fun _ => [], DBKind.local_, "openai", some "bonjour",
    fun _ => true, fun _ => true, fun _ => true, true⟩

/-! ## C1: a missing module aborts the run before any effect -/

/-- C1: when the module search returns no match, the run logs the absence,
returns normally, creates no export-wizard record, never calls the LLM and
writes no file. -/
theorem run_module_not_found (a : Args) (w : World)
    (h : w.searchModuleIds = []) :
    (run a w).2 = none ∧
    Event.logError ("Module '" ++ a.module_name ++ "' not found.") ∈ (run a w).1 ∧
    (∀ l m, Event.createWizard l m ∉ (run a w).1) ∧
    Event.llmCall ∉ (run a w).1 ∧
    (∀ p c, Event.write p c ∉ (run a w).1) := by
  have hm : get_module_id a w = ([Event.searchModule a.module_name,
      Event.logError ("Module '" ++ a.module_name ++ "' not found.")], none) := by
    unfold get_module_id
    rw [h]
  have hr : run a w = (runHeader a ++ [Event.searchModule a.module_name,
      Event.logError ("Module '" ++ a.module_name ++ "' not found.")], none) := by
    rcases run_cases a w with ⟨hrun, _⟩ | ⟨mid, hmid, _⟩
    · rw [hrun, hm]
    · rw [hm] at hmid
      simp at hmid
  rw [hr]
  refine ⟨rfl, ?_, ?_, ?_, ?_⟩ <;> simp [runHeader]

/-- Witness for C1: the concrete empty-search world. -/
theorem run_module_not_found_witness :
    (run argsA worldNoModule).2 = none ∧
    Event.logError ("Module '" ++ argsA.module_name ++ "' not found.") ∈
      (run argsA worldNoModule).1 ∧
    (∀ l m, Event.createWizard l m ∉ (run argsA worldNoModule).1) ∧
    Event.llmCall ∉ (run argsA worldNoModule).1 ∧
    (∀ p c, Event.write p c ∉ (run argsA worldNoModule).1) :=
  run_module_not_found argsA worldNoModule rfl

/-! ## C8: the writer writes exactly the content, silently overwriting -/

/-- C8: for any resolved directory, filename and content, the writer sets the
file at `directory ++ [filename]` to exactly `content`, leaves every other
path untouched — in particular it overwrites whatever was there before, for
any prior file contents `fs` — and asks nothing and logs no error while
doing so. -/
theorem write_translation_file_spec (p : Path) (fn content : String)
    (fs : Path → Option String) :
    applyFS fs (write_translation_file p fn content) (p ++ [fn]) = some content ∧
    (∀ q, q ≠ p ++ [fn] → applyFS fs (write_translation_file p fn content) q = fs q) ∧
    (∀ b, Event.confirmPrompt b ∉ write_translation_file p fn content) ∧
    (∀ m, Event.logError m ∉ write_translation_file p fn content) := by
  refine ⟨?_, ?_, ?_, ?_⟩
  · simp [applyFS, applyEvent, write_translation_file]
  · intro q hq
    simp [applyFS, applyEvent, write_translation_file, hq]
  · intro b
    simp [write_translation_file]
  · intro m
    simp [write_translation_file]

/-- Witness for C8 at a concrete directory, filename, content and prior
filesystem that already has a file at the target path (it is overwritten). -/
theorem write_translation_file_spec_witness :
    applyFS (fun _ => some "old") (write_translation_file ["addons", "sale", "i18n"]
      "sale.po" "new") (["addons", "sale", "i18n"] ++ ["sale.po"]) = some "new" ∧
    applyFS (fun _ => some "old") (write_translation_file ["addons", "sale", "i18n"]
      "sale.po" "new") ["other"] = (fun _ => some "old") ["other"] :=
  ⟨(write_translation_file_spec ["addons", "sale", "i18n"] "sale.po" "new"
      (fun _ => some "old")).1,
    (write_translation_file_spec ["addons", "sale", "i18n"] "sale.po" "new"
      (fun _ => some "old")).2.1 ["other"] (by decide)⟩

/-! ## Per-step value lemmas -/

theorem get_module_found {a : Args} {w : World} {mid : Nat} {mrest : List Nat}
    (h : w.searchModuleIds = mid :: mrest) :
    get_module_id a w = ([Event.searchModule a.module_name], some mid) := by
  unfold get_module_id
  rw [h]

theorem export_success {a : Args} {w : World} {mid rid : Nat} {rec : ExportRecord}
    {rrest : List ExportRecord}
    (hact : w.actGetfile = some ⟨some rid⟩) (hread : w.readRecords rid = rec :: rrest) :
    export_po_file_content a w mid =
      ([Event.createWizard a.lang mid, Event.actGetfile, Event.readExport rid],
        some (rec.display_name, rec.data)) := by
  unfold export_po_file_content
  rw [hact]
  simp [hread]

theorem export_fail_trigger {a : Args} {w : World} {mid : Nat}
    (h : w.actGetfile = none) :
    export_po_file_content a w mid =
      ([Event.createWizard a.lang mid, Event.actGetfile,
        Event.logError "Failed to trigger the file export action in Odoo."], none) := by
  unfold export_po_file_content
  rw [h]
  rfl

theorem export_fail_no_res_id {a : Args} {w : World} {mid : Nat} {act : ExportAction}
    (h : w.actGetfile = some act) (h2 : act.res_id = none) :
    export_po_file_content a w mid =
      ([Event.createWizard a.lang mid, Event.actGetfile,
        Event.logError "Failed to trigger the file export action in Odoo."], none) := by
  unfold export_po_file_content
  rw [h]
  obtain ⟨rs⟩ := act
  simp only at h2
  subst h2
  rfl

theorem export_fail_read {a : Args} {w : World} {mid : Nat} {act : ExportAction} {rid : Nat}
    (h : w.actGetfile = some act) (h2 : act.res_id = some rid)
    (h3 : w.readRecords rid = []) :
    export_po_file_content a w mid =
      ([Event.createWizard a.lang mid, Event.actGetfile, Event.readExport rid,
        Event.logError "Failed to read the exported translation data from Odoo."], none) := by
  unfold export_po_file_content
  rw [h]
  obtain ⟨rs⟩ := act
  simp only at h2
  subst h2
  simp [h3]

/-- `_get_ai_translation` never produces `Except.ok none`, and an `ok` result
is a non-empty string: formilised as the full result disjunction. -/
theorem gat_result (w : World) (po : List Nat) :
    (∃ e, (get_ai_translation w po).2 = Except.error e) ∨
    (∃ s, (get_ai_translation w po).2 = Except.ok (some s) ∧ s ≠ "") := by
  unfold get_ai_translation
  cases hk : w.dbKind
  case other => exact Or.inl ⟨_, rfl⟩
  all_goals
    cases hl : w.llmResponse with
    | none =>
        exact Or.inl ⟨PyError.valueError "AI translation failed or returned no content.",
          by simp⟩
    | some s =>
        by_cases hs : s = ""
        · exact Or.inl ⟨PyError.valueError "AI translation failed or returned no content.",
            by simp [hs]⟩
        · exact Or.inr ⟨s, by simp [hs], hs⟩

theorem gat_success {w : World} {po : List Nat} {t : String}
    (hdb : w.dbKind ≠ DBKind.other) (hllm : w.llmResponse = some t) (ht : t ≠ "") :
    get_ai_translation w po = ([Event.llmCall,
      Event.logInfo ("Translation completed successfully using '" ++
        w.llmProvider ++ "'.")], Except.ok (some t)) := by
  unfold get_ai_translation
  cases hk : w.dbKind
  case other => exact absurd hk hdb
  all_goals simp [hllm, ht]

theorem gat_result_empty (w : World) (po : List Nat)
    (hl : w.llmResponse = none ∨ w.llmResponse = some "") :
    (w.dbKind = DBKind.other ∧
      (get_ai_translation w po).2 = Except.error
        (PyError.typeError "Unsupported database type for fetching context.") ∧
      (get_ai_translation w po).1 = []) ∨
    (w.dbKind ≠ DBKind.other ∧
      (get_ai_translation w po).2 = Except.error
        (PyError.valueError "AI translation failed or returned no content.") ∧
      (get_ai_translation w po).1 = [Event.llmCall]) := by
  unfold get_ai_translation
  cases hk : w.dbKind
  case other => exact Or.inl ⟨rfl, rfl, rfl⟩
  all_goals refine Or.inr ⟨by simp, ?_, ?_⟩
  all_goals rcases hl with hl | hl <;> simp [hl]

theorem gop_accept {a : Args} {w : World}
    (h1 : w.pathExists a.path = true) (h2 : w.checkAddonsPath a.path = true)
    (h3 : w.isDir (a.path ++ [a.module_name]) = true) (h4 : w.confirm = true) :
    get_output_path a w =
      ([Event.pathExistsCheck a.path, Event.confirmPrompt true,
        Event.mkdir (a.path ++ [a.module_name] ++ ["i18n"])],
        some (a.path ++ [a.module_name] ++ ["i18n"])) := by
  unfold get_output_path
  simp [h1, h2, h3, h4]

theorem gop_confirm_false {a : Args} {w : World}
    (h : Event.confirmPrompt false ∈ (get_output_path a w).1) :
    get_output_path a w = ([Event.pathExistsCheck a.path, Event.confirmPrompt false,
      Event.logInfo "Operation cancelled by user."], none) := by
  unfold get_output_path at h ⊢
  by_cases h1 : w.pathExists a.path <;>
    by_cases h2 : w.checkAddonsPath a.path && w.isDir (a.path ++ [a.module_name]) <;>
    by_cases h3 : w.confirm <;>
    simp_all

theorem gop_some {a : Args} {w : World} {p : Path}
    (h : (get_output_path a w).2 = some p) :
    (p = a.path ∧ w.pathExists a.path = true) ∨
    (p = a.path ++ [a.module_name] ++ ["i18n"] ∧
      Event.mkdir p ∈ (get_output_path a w).1) := by
  unfold get_output_path at h ⊢
  by_cases h1 : w.pathExists a.path <;>
    by_cases h2 : w.checkAddonsPath a.path && w.isDir (a.path ++ [a.module_name]) <;>
    by_cases h3 : w.confirm <;>
    simp_all

/-! ## Events that a given step can never emit -/

theorem llm_not_in_header (a : Args) : Event.llmCall ∉ runHeader a := by
  simp [runHeader]

theorem llm_not_in_module (a : Args) (w : World) :
    Event.llmCall ∉ (get_module_id a w).1 := by
  intro h
  rcases get_module_id_events a w _ h with h | h <;> simp at h

theorem llm_not_in_export (a : Args) (w : World) (mid : Nat) :
    Event.llmCall ∉ (export_po_file_content a w mid).1 := by
  intro h
  rcases export_events a w mid _ h with h | h | ⟨r, h⟩ | h | h <;> simp at h

theorem llm_not_in_gop (a : Args) (w : World) :
    Event.llmCall ∉ (get_output_path a w).1 := by
  intro h
  rcases gop_events a w _ h with h | ⟨b, h⟩ | h | h | h <;> simp at h

theorem llm_not_in_write (p : Path) (fn c : String) :
    Event.llmCall ∉ write_translation_file p fn c := by
  intro h
  rcases write_events p fn c _ h with h | h <;> simp at h

theorem write_not_in_header (a : Args) (p : Path) (c : String) :
    Event.write p c ∉ runHeader a := by
  simp [runHeader]

theorem write_not_in_module (a : Args) (w : World) (p : Path) (c : String) :
    Event.write p c ∉ (get_module_id a w).1 := by
  intro h
  rcases get_module_id_events a w _ h with h | h <;> simp at h

theorem write_not_in_export (a : Args) (w : World) (mid : Nat) (p : Path) (c : String) :
    Event.write p c ∉ (export_po_file_content a w mid).1 := by
  intro h
  rcases export_events a w mid _ h with h | h | ⟨r, h⟩ | h | h <;> simp at h

theorem write_not_in_gat (w : World) (po : List Nat) (p : Path) (c : String) :
    Event.write p c ∉ (get_ai_translation w po).1 := by
  intro h
  rcases gat_events w po _ h with h | h <;> simp at h

theorem write_not_in_gop (a : Args) (w : World) (p : Path) (c : String) :
    Event.write p c ∉ (get_output_path a w).1 := by
  intro h
  rcases gop_events a w _ h with h | ⟨b, h⟩ | h | h | h <;> simp at h

theorem confirm_not_in_header (a : Args) (b : Bool) :
    Event.confirmPrompt b ∉ runHeader a := by
  simp [runHeader]

theorem confirm_not_in_module (a : Args) (w : World) (b : Bool) :
    Event.confirmPrompt b ∉ (get_module_id a w).1 := by
  intro h
  rcases get_module_id_events a w _ h with h | h <;> simp at h

theorem confirm_not_in_export (a : Args) (w : World) (mid : Nat) (b : Bool) :
    Event.confirmPrompt b ∉ (export_po_file_content a w mid).1 := by
  intro h
  rcases export_events a w mid _ h with h | h | ⟨r, h⟩ | h | h <;> simp at h

theorem confirm_not_in_gat (w : World) (po : List Nat) (b : Bool) :
    Event.confirmPrompt b ∉ (get_ai_translation w po).1 := by
  intro h
  rcases gat_events w po _ h with h | h <;> simp at h

theorem confirm_not_in_write (p : Path) (fn c : String) (b : Bool) :
    Event.confirmPrompt b ∉ write_translation_file p fn c := by
  intro h
  rcases write_events p fn c _ h with h | h <;> simp at h

theorem ai_failed_not_in_header (a : Args) :
    Event.logError "AI translation failed." ∉ runHeader a := by
  simp [runHeader]

theorem ai_failed_not_in_module (a : Args) (w : World) :
    Event.logError "AI translation failed." ∉ (get_module_id a w).1 := by
  intro h
  rcases get_module_id_events a w _ h with h | h
  · simp at h
  · simp only [Event.logError.injEq] at h
    exact module_msg_ne _ h.symm

theorem ai_failed_not_in_export (a : Args) (w : World) (mid : Nat) :
    Event.logError "AI translation failed." ∉ (export_po_file_content a w mid).1 := by
  intro h
  rcases export_events a w mid _ h with h | h | ⟨r, h⟩ | h | h
  · simp at h
  · simp at h
  · simp at h
  · exact absurd h (by decide)
  · exact absurd h (by decide)

theorem ai_failed_not_in_gat (w : World) (po : List Nat) :
    Event.logError "AI translation failed." ∉ (get_ai_translation w po).1 := by
  intro h
  rcases gat_events w po _ h with h | h <;> simp at h

theorem ai_failed_not_in_gop (a : Args) (w : World) :
    Event.logError "AI translation failed." ∉ (get_output_path a w).1 := by
  intro h
  rcases gop_events a w _ h with h | ⟨b, h⟩ | h | h | h
  · simp at h
  · simp at h
  · simp at h
  · simp only [Event.logError.injEq] at h
    exact path_msg_ne _ h.symm
  · exact absurd h (by decide)

theorem ai_failed_not_in_write (p : Path) (fn c : String) :
    Event.logError "AI translation failed." ∉ write_translation_file p fn c := by
  intro h
  rcases write_events p fn c _ h with h | h <;> simp at h

/-! ## C9: the translation step never returns `None` -/

/-- C9: `_get_ai_translation` either raises (a `TypeError` or `ValueError`)
or returns a non-empty string — never `None` — so the `if ai_translation is
None` branch of `run` is unreachable: its `"AI translation failed."` message
never appears in any run's log. -/
theorem get_ai_translation_never_none (a : Args) (w : World) :
    (∀ po : List Nat,
      (∃ e, (get_ai_translation w po).2 = Except.error e) ∨
      (∃ s, (get_ai_translation w po).2 = Except.ok (some s) ∧ s ≠ "")) ∧
    Event.logError "AI translation failed." ∉ (run a w).1 := by
  refine ⟨gat_result w, ?_⟩
  intro hmem
  rcases run_cases a w with ⟨hrun, _⟩ |
    ⟨mid, hm, h0, ⟨hexp, hrun⟩ | ⟨fn, bc, hexp, ⟨hdec, hrun⟩ | ⟨po, hdec,
      ⟨err, hgat, hrun⟩ | ⟨hgat, hrun⟩ | ⟨tr, hgat, ⟨hout, hrun⟩ | ⟨out, hout, hrun⟩⟩⟩⟩⟩
  · rw [hrun] at hmem
    simp only [List.mem_append] at hmem
    rcases hmem with h | h
    exacts [ai_failed_not_in_header a h, ai_failed_not_in_module a w h]
  · rw [hrun] at hmem
    simp only [List.mem_append] at hmem
    rcases hmem with (h | h) | h
    exacts [ai_failed_not_in_header a h, ai_failed_not_in_module a w h,
      ai_failed_not_in_export a w mid h]
  · rw [hrun] at hmem
    simp only [List.mem_append] at hmem
    rcases hmem with (h | h) | h
    exacts [ai_failed_not_in_header a h, ai_failed_not_in_module a w h,
      ai_failed_not_in_export a w mid h]
  · rw [hrun] at hmem
    simp only [List.mem_append] at hmem
    rcases hmem with ((h | h) | h) | h
    exacts [ai_failed_not_in_header a h, ai_failed_not_in_module a w h,
      ai_failed_not_in_export a w mid h, ai_failed_not_in_gat w po h]
  · rcases gat_result w po with ⟨e, h⟩ | ⟨s, h, hs⟩ <;> rw [hgat] at h <;> simp at h
  · rw [hrun] at hmem
    simp only [List.mem_append] at hmem
    rcases hmem with (((h | h) | h) | h) | h
    exacts [ai_failed_not_in_header a h, ai_failed_not_in_module a w h,
      ai_failed_not_in_export a w mid h, ai_failed_not_in_gat w po h,
      ai_failed_not_in_gop a w h]
  · rw [hrun] at hmem
    simp only [List.mem_append] at hmem
    rcases hmem with ((((h | h) | h) | h) | h) | h
    exacts [ai_failed_not_in_header a h, ai_failed_not_in_module a w h,
      ai_failed_not_in_export a w mid h, ai_failed_not_in_gat w po h,
      ai_failed_not_in_gop a w h, ai_failed_not_in_write out fn tr h]

/-- Witness for C9 at a concrete world where the completion is `None`. -/
theorem get_ai_translation_never_none_witness :
    ((∃ e, (get_ai_translation worldLlmEmpty [104, 105]).2 = Except.error e) ∨
      (∃ s, (get_ai_translation worldLlmEmpty [104, 105]).2 = Except.ok (some s) ∧ s ≠ "")) ∧
    Event.logError "AI translation failed." ∉ (run argsA worldLlmEmpty).1 :=
  ⟨(get_ai_translation_never_none argsA worldLlmEmpty).1 [104, 105],
    (get_ai_translation_never_none argsA worldLlmEmpty).2⟩

/-! ## C3: an empty or absent completion raises and prevents any write -/

/-- C3: in every run where the LLM call happens and its completion is empty
or absent, the run raises the `ValueError` (it does not merely log and
return) and writes no file. -/
theorem run_empty_llm_raises (a : Args) (w : World)
    (hl : w.llmResponse = none ∨ w.llmResponse = some "")
    (hcall : Event.llmCall ∈ (run a w).1) :
    (run a w).2 = some (PyError.valueError "AI translation failed or returned no content.") ∧
    ∀ p c, Event.write p c ∉ (run a w).1 := by
  rcases run_cases a w with ⟨hrun, _⟩ |
    ⟨mid, hm, h0, ⟨hexp, hrun⟩ | ⟨fn, bc, hexp, ⟨hdec, hrun⟩ | ⟨po, hdec, hrest⟩⟩⟩
  · rw [hrun] at hcall
    simp only [List.mem_append] at hcall
    rcases hcall with h | h
    exacts [absurd h (llm_not_in_header a), absurd h (llm_not_in_module a w)]
  · rw [hrun] at hcall
    simp only [List.mem_append] at hcall
    rcases hcall with (h | h) | h
    exacts [absurd h (llm_not_in_header a), absurd h (llm_not_in_module a w),
      absurd h (llm_not_in_export a w mid)]
  · rw [hrun] at hcall
    simp only [List.mem_append] at hcall
    rcases hcall with (h | h) | h
    exacts [absurd h (llm_not_in_header a), absurd h (llm_not_in_module a w),
      absurd h (llm_not_in_export a w mid)]
  rcases gat_result_empty w po hl with ⟨hk, hres, htr⟩ | ⟨hk, hres, htr⟩
  · -- unsupported database type: the LLM is never called, contradicting `hcall`
    rcases hrest with ⟨err, hgat, hrun⟩ | ⟨hgat, hrun⟩ | ⟨tr, hgat, _⟩
    · rw [hrun] at hcall
      simp only [List.mem_append, htr, List.not_mem_nil, or_false] at hcall
      rcases hcall with (h | h) | h
      exacts [absurd h (llm_not_in_header a), absurd h (llm_not_in_module a w),
        absurd h (llm_not_in_export a w mid)]
    · rw [hres] at hgat
      simp at hgat
    · rw [hres] at hgat
      simp at hgat
  · rcases hrest with ⟨err, hgat, hrun⟩ | ⟨hgat, hrun⟩ | ⟨tr, hgat, _⟩
    · rw [hres] at hgat
      simp only [Except.error.injEq] at hgat
      subst hgat
      refine ⟨by rw [hrun], ?_⟩
      intro p c hw
      rw [hrun] at hw
      simp only [List.mem_append] at hw
      rcases hw with ((h | h) | h) | h
      exacts [write_not_in_header a p c h, write_not_in_module a w p c h,
        write_not_in_export a w mid p c h, write_not_in_gat w po p c h]
    · rw [hres] at hgat
      simp at hgat
    · rw [hres] at hgat
      simp at hgat

/-- Witness for C3: the world where everything succeeds but the completion
returns `None`. -/
theorem run_empty_llm_raises_witness :
    (run argsA worldLlmEmpty).2 =
      some (PyError.valueError "AI translation failed or returned no content.") ∧
    ∀ p c, Event.write p c ∉ (run argsA worldLlmEmpty).1 :=
  run_empty_llm_raises argsA worldLlmEmpty (Or.inl rfl) (by decide)

/-! ## C4: declining the prompt cancels the run and writes nothing -/

/-- C4: in every run where the destination prompt is shown and the user
declines it, the cancellation message is logged, the run returns normally,
and no file is written anywhere. -/
theorem run_decline_prompt_no_write (a : Args) (w : World)
    (hdecl : Event.confirmPrompt false ∈ (run a w).1) :
    Event.logInfo "Operation cancelled by user." ∈ (run a w).1 ∧
    (run a w).2 = none ∧
    ∀ p c, Event.write p c ∉ (run a w).1 := by
  rcases run_cases a w with ⟨hrun, _⟩ |
    ⟨mid, hm, h0, ⟨hexp, hrun⟩ | ⟨fn, bc, hexp, ⟨hdec, hrun⟩ | ⟨po, hdec,
      ⟨err, hgat, hrun⟩ | ⟨hgat, hrun⟩ | ⟨tr, hgat, ⟨hout, hrun⟩ | ⟨out, hout, hrun⟩⟩⟩⟩⟩
  · rw [hrun] at hdecl
    simp only [List.mem_append] at hdecl
    rcases hdecl with h | h
    exacts [absurd h (confirm_not_in_header a false),
      absurd h (confirm_not_in_module a w false)]
  · rw [hrun] at hdecl
    simp only [List.mem_append] at hdecl
    rcases hdecl with (h | h) | h
    exacts [absurd h (confirm_not_in_header a false),
      absurd h (confirm_not_in_module a w false),
      absurd h (confirm_not_in_export a w mid false)]
  · rw [hrun] at hdecl
    simp only [List.mem_append] at hdecl
    rcases hdecl with (h | h) | h
    exacts [absurd h (confirm_not_in_header a false),
      absurd h (confirm_not_in_module a w false),
      absurd h (confirm_not_in_export a w mid false)]
  · rw [hrun] at hdecl
    simp only [List.mem_append] at hdecl
    rcases hdecl with ((h | h) | h) | h
    exacts [absurd h (confirm_not_in_header a false),
      absurd h (confirm_not_in_module a w false),
      absurd h (confirm_not_in_export a w mid false),
      absurd h (confirm_not_in_gat w po false)]
  · rw [hrun] at hdecl
    simp only [List.mem_append] at hdecl
    rcases hdecl with (((h | h) | h) | h) | h
    exacts [absurd h (confirm_not_in_header a false),
      absurd h (confirm_not_in_module a w false),
      absurd h (confirm_not_in_export a w mid false),
      absurd h (confirm_not_in_gat w po false),
      absurd h (by simp)]
  · -- the declined-prompt branch of `_get_output_path` itself
    rw [hrun] at hdecl
    simp only [List.mem_append] at hdecl
    have hgop : get_output_path a w = ([Event.pathExistsCheck a.path,
        Event.confirmPrompt false, Event.logInfo "Operation cancelled by user."], none) := by
      rcases hdecl with (((h | h) | h) | h) | h
      · exact absurd h (confirm_not_in_header a false)
      · exact absurd h (confirm_not_in_module a w false)
      · exact absurd h (confirm_not_in_export a w mid false)
      · exact absurd h (confirm_not_in_gat w po false)
      · exact gop_confirm_false h
    have ho1 : (get_output_path a w).1 = [Event.pathExistsCheck a.path,
        Event.confirmPrompt false, Event.logInfo "Operation cancelled by user."] := by
      rw [hgop]
    refine ⟨?_, by rw [hrun], ?_⟩
    · rw [hrun]
      simp only [List.mem_append, ho1]
      simp
    · intro p c hw
      rw [hrun] at hw
      simp only [List.mem_append, ho1] at hw
      rcases hw with (((h | h) | h) | h) | h
      exacts [write_not_in_header a p c h, write_not_in_module a w p c h,
        write_not_in_export a w mid p c h, write_not_in_gat w po p c h,
        absurd h (by simp)]
  · -- a confirmed prompt cannot coexist with the declined one
    rw [hrun] at hdecl
    simp only [List.mem_append] at hdecl
    rcases hdecl with ((((h | h) | h) | h) | h) | h
    · exact absurd h (confirm_not_in_header a false)
    · exact absurd h (confirm_not_in_module a w false)
    · exact absurd h (confirm_not_in_export a w mid false)
    · exact absurd h (confirm_not_in_gat w po false)
    · have := gop_confirm_false h
      rw [this] at hout
      simp at hout
    · exact absurd h (confirm_not_in_write out fn tr false)

/-- Witness for C4: everything succeeds but the user declines. -/
theorem run_decline_prompt_no_write_witness :
    Event.logInfo "Operation cancelled by user." ∈ (run argsA worldDecline).1 ∧
    (run argsA worldDecline).2 = none ∧
    ∀ p c, Event.write p c ∉ (run argsA worldDecline).1 :=
  run_decline_prompt_no_write argsA worldDecline (by decide)

/-! ## C5: accepting the prompt writes to `<path>/<module>/i18n/<filename>` -/

/-- C5: in every run where the prompt is shown and accepted, the output file
is written at exactly `<path>/<module_name>/i18n/<filename>` — the filename
being the export's display name, the content the LLM's returned text — with
the `i18n` directory ensured to exist (`mkdir(exist_ok=True)`), and the run
returns normally. -/
theorem run_accept_prompt_writes_i18n (a : Args) (w : World) (mid rid : Nat)
    (mrest : List Nat) (rec : ExportRecord) (rrest : List ExportRecord)
    (po : List Nat) (t : String)
    (hsearch : w.searchModuleIds = mid :: mrest) (hmid : mid ≠ 0)
    (hact : w.actGetfile = some ⟨some rid⟩)
    (hread : w.readRecords rid = rec :: rrest)
    (hdec : b64DecodeUtf8 rec.data = some po)
    (hdb : w.dbKind ≠ DBKind.other) (hllm : w.llmResponse = some t) (ht : t ≠ "")
    (hpe : w.pathExists a.path = true) (hca : w.checkAddonsPath a.path = true)
    (hdir : w.isDir (a.path ++ [a.module_name]) = true) (hconf : w.confirm = true) :
    Event.mkdir (a.path ++ [a.module_name, "i18n"]) ∈ (run a w).1 ∧
    Event.write (a.path ++ [a.module_name, "i18n", rec.display_name]) t ∈ (run a w).1 ∧
    (run a w).2 = none := by
  have hm := @get_module_found a w mid mrest hsearch
  have he := @export_success a w mid rid rec rrest hact hread
  have hg := @gat_success w po t hdb hllm ht
  have ho := @gop_accept a w hpe hca hdir hconf
  have hr : run a w = (runHeader a ++ [Event.searchModule a.module_name] ++
      [Event.createWizard a.lang mid, Event.actGetfile, Event.readExport rid] ++
      [Event.llmCall, Event.logInfo ("Translation completed successfully using '" ++
        w.llmProvider ++ "'.")] ++
      [Event.pathExistsCheck a.path, Event.confirmPrompt true,
        Event.mkdir (a.path ++ [a.module_name] ++ ["i18n"])] ++
      write_translation_file (a.path ++ [a.module_name] ++ ["i18n"])
        rec.display_name t, none) := by
    simp only [run, hm, he, hdec, hg, ho]
    simp [hmid]
  rw [hr]
  refine ⟨?_, ?_, rfl⟩
  · simp [write_translation_file]
  · simp [write_translation_file]

/-- Witness for C5: the spec's worked example shape (module `sale`, user
confirms), with content "hi" and translation "bonjour". -/
theorem run_accept_prompt_writes_i18n_witness :
    Event.mkdir (argsA.path ++ [argsA.module_name, "i18n"]) ∈ (run argsA worldAccept).1 ∧
    Event.write (argsA.path ++ [argsA.module_name, "i18n", "sale.po"]) "bonjour" ∈
      (run argsA worldAccept).1 ∧
    (run argsA worldAccept).2 = none :=
  run_accept_prompt_writes_i18n argsA worldAccept 7 3 []
    ⟨"sale.po", b64Encode (utf8Encode [104, 105])⟩ [] [104, 105] "bonjour"
    rfl (by decide) rfl rfl (by decide) (by decide) rfl (by decide) rfl rfl rfl rfl

/-! ## C6: a missing export intermediate is fatal, with no retry -/

/-- Does the event create the export wizard? -/
def isCreateWizard : Event → Bool
  | Event.createWizard _ _ => true
  | _ => false

/-- Does the event invoke the wizard's `act_getfile`? -/
def isActGetfile : Event → Bool
  | Event.actGetfile => true
  | _ => false

/-- C6: when the export step finds a missing intermediate result — no
file-generation action, an action without `res_id`, or no data on read-back —
the run ends normally (fatal for the run, not an exception) after logging
the failure; the LLM is never called, nothing is written, and there is no
retry: the wizard is created exactly once and `act_getfile` invoked exactly
once. -/
theorem run_export_failure_fatal (a : Args) (w : World) (mid : Nat) (mrest : List Nat)
    (hsearch : w.searchModuleIds = mid :: mrest) (hmid : mid ≠ 0)
    (hfail : w.actGetfile = none ∨
      (∃ act, w.actGetfile = some act ∧ act.res_id = none) ∨
      (∃ act rid, w.actGetfile = some act ∧ act.res_id = some rid ∧
        w.readRecords rid = [])) :
    (run a w).2 = none ∧
    (Event.logError "Failed to trigger the file export action in Odoo." ∈ (run a w).1 ∨
      Event.logError "Failed to read the exported translation data from Odoo." ∈ (run a w).1) ∧
    Event.llmCall ∉ (run a w).1 ∧
    (∀ p c, Event.write p c ∉ (run a w).1) ∧
    (run a w).1.countP isCreateWizard = 1 ∧
    (run a w).1.countP isActGetfile = 1 := by
  have hm := @get_module_found a w mid mrest hsearch
  obtain hT | ⟨act, hact, hrs⟩ | ⟨act, rid, hact, hrs, hread⟩ := hfail
  · have he := @export_fail_trigger a w mid hT
    have hr : run a w = (runHeader a ++ [Event.searchModule a.module_name] ++
        [Event.createWizard a.lang mid, Event.actGetfile,
          Event.logError "Failed to trigger the file export action in Odoo."], none) := by
      simp only [run, hm, he]
      simp [hmid]
    rw [hr]
    refine ⟨rfl, Or.inl (by simp), by simp [runHeader], fun p c => by simp [runHeader], ?_, ?_⟩ <;>
      simp [runHeader, List.countP_cons, isCreateWizard, isActGetfile]
  · have he := @export_fail_no_res_id a w mid act hact hrs
    have hr : run a w = (runHeader a ++ [Event.searchModule a.module_name] ++
        [Event.createWizard a.lang mid, Event.actGetfile,
          Event.logError "Failed to trigger the file export action in Odoo."], none) := by
      simp only [run, hm, he]
      simp [hmid]
    rw [hr]
    refine ⟨rfl, Or.inl (by simp), by simp [runHeader], fun p c => by simp [runHeader], ?_, ?_⟩ <;>
      simp [runHeader, List.countP_cons, isCreateWizard, isActGetfile]
  · have he := @export_fail_read a w mid act rid hact hrs hread
    have hr : run a w = (runHeader a ++ [Event.searchModule a.module_name] ++
        [Event.createWizard a.lang mid, Event.actGetfile, Event.readExport rid,
          Event.logError "Failed to read the exported translation data from Odoo."], none) := by
      simp only [run, hm, he]
      simp [hmid]
    rw [hr]
    refine ⟨rfl, Or.inr (by simp), by simp [runHeader], fun p c => by simp [runHeader], ?_, ?_⟩ <;>
      simp [runHeader, List.countP_cons, isCreateWizard, isActGetfile]

/-- Witness for C6: the wizard's `act_getfile` returns nothing. -/
theorem run_export_failure_fatal_witness :
    (run argsA worldNoAction).2 = none ∧
    (Event.logError "Failed to trigger the file export action in Odoo." ∈
        (run argsA worldNoAction).1 ∨
      Event.logError "Failed to read the exported translation data from Odoo." ∈
        (run argsA worldNoAction).1) ∧
    Event.llmCall ∉ (run argsA worldNoAction).1 ∧
    (∀ p c, Event.write p c ∉ (run argsA worldNoAction).1) ∧
    (run argsA worldNoAction).1.countP isCreateWizard = 1 ∧
    (run argsA worldNoAction).1.countP isActGetfile = 1 :=
  run_export_failure_fatal argsA worldNoAction 7 [] rfl (by decide) (Or.inl rfl)

/-! ## C10: the writer is never pointed at a non-existent directory -/

/-- C10: `_get_output_path` returns nothing, the requested path after its
existence check succeeded, or the module's `i18n` subdirectory right after
ensuring it exists; consequently every write of a run targets
`directory ++ [filename]` for a directory that either passed the existence
check or was created by `mkdir` in the same run. -/
theorem write_dir_exists (a : Args) (w : World) :
    (∀ p, (get_output_path a w).2 = some p →
      (p = a.path ∧ w.pathExists a.path = true) ∨
      (p = a.path ++ [a.module_name] ++ ["i18n"] ∧
        Event.mkdir p ∈ (get_output_path a w).1)) ∧
    (∀ p c, Event.write p c ∈ (run a w).1 →
      ∃ d fn, p = d ++ [fn] ∧
        ((d = a.path ∧ w.pathExists a.path = true) ∨ Event.mkdir d ∈ (run a w).1)) := by
  refine ⟨fun p hp => gop_some hp, ?_⟩
  intro p c hw
  rcases run_cases a w with ⟨hrun, _⟩ |
    ⟨mid, hm, h0, ⟨hexp, hrun⟩ | ⟨fn, bc, hexp, ⟨hdec, hrun⟩ | ⟨po, hdec,
      ⟨err, hgat, hrun⟩ | ⟨hgat, hrun⟩ | ⟨tr, hgat, ⟨hout, hrun⟩ | ⟨out, hout, hrun⟩⟩⟩⟩⟩
  · rw [hrun] at hw
    simp only [List.mem_append] at hw
    rcases hw with h | h
    exacts [absurd h (write_not_in_header a p c), absurd h (write_not_in_module a w p c)]
  · rw [hrun] at hw
    simp only [List.mem_append] at hw
    rcases hw with (h | h) | h
    exacts [absurd h (write_not_in_header a p c), absurd h (write_not_in_module a w p c),
      absurd h (write_not_in_export a w mid p c)]
  · rw [hrun] at hw
    simp only [List.mem_append] at hw
    rcases hw with (h | h) | h
    exacts [absurd h (write_not_in_header a p c), absurd h (write_not_in_module a w p c),
      absurd h (write_not_in_export a w mid p c)]
  · rw [hrun] at hw
    simp only [List.mem_append] at hw
    rcases hw with ((h | h) | h) | h
    exacts [absurd h (write_not_in_header a p c), absurd h (write_not_in_module a w p c),
      absurd h (write_not_in_export a w mid p c), absurd h (write_not_in_gat w po p c)]
  · rw [hrun] at hw
    simp only [List.mem_append] at hw
    rcases hw with (((h | h) | h) | h) | h
    exacts [absurd h (write_not_in_header a p c), absurd h (write_not_in_module a w p c),
      absurd h (write_not_in_export a w mid p c), absurd h (write_not_in_gat w po p c),
      absurd h (by simp)]
  · rw [hrun] at hw
    simp only [List.mem_append] at hw
    rcases hw with (((h | h) | h) | h) | h
    exacts [absurd h (write_not_in_header a p c), absurd h (write_not_in_module a w p c),
      absurd h (write_not_in_export a w mid p c), absurd h (write_not_in_gat w po p c),
      absurd h (write_not_in_gop a w p c)]
  · rw [hrun] at hw
    simp only [List.mem_append] at hw
    rcases hw with ((((h | h) | h) | h) | h) | h
    · exact absurd h (write_not_in_header a p c)
    · exact absurd h (write_not_in_module a w p c)
    · exact absurd h (write_not_in_export a w mid p c)
    · exact absurd h (write_not_in_gat w po p c)
    · exact absurd h (write_not_in_gop a w p c)
    · rcases write_events out fn tr _ h with h | h
      · simp only [Event.write.injEq] at h
        obtain ⟨hp, hc⟩ := h
        refine ⟨out, fn, hp, ?_⟩
        rcases gop_some hout with ⟨hod, hex⟩ | ⟨hod, hmk⟩
        · exact Or.inl ⟨hod, hex⟩
        · refine Or.inr ?_
          rw [hrun]
          simp only [List.mem_append]
          exact Or.inl (Or.inr hmk)
      · simp at h

/-- Witness for C10: the concrete accepted-prompt run, where the write
targets the `i18n` directory created by `mkdir` in the same run. -/
theorem write_dir_exists_witness :
    ∃ d fn, (["addons", "sale", "i18n", "sale.po"] : Path) = d ++ [fn] ∧
      ((d = argsA.path ∧ worldAccept.pathExists argsA.path = true) ∨
        Event.mkdir d ∈ (run argsA worldAccept).1) :=
  (write_dir_exists argsA worldAccept).2 ["addons", "sale", "i18n", "sale.po"] "bonjour"
    (by decide)

end Translate
